import Mathlib

/-!
Shallow embedding of the paiptree-news-rss-auto scraping scripts.

The Python sources embedded here are `rss_scraper.py`, `rss_scraper_enhanced.py`
and `web_scraper.py`.  Pure string/list processing is translated directly;
external effects (HTML entity decoding via `html.unescape`, the article-image
network pipeline, wall-clock time, HTTP image size probing) are passed in as
explicit function/value parameters, which is how the stateful code is made
pure.  Machine integers do not occur (Python integers are unbounded), so `Nat`
and `Int` are used directly; CPython floats in the similarity threshold test
are modelled with exact rationals.

Unicode notes, used throughout: Python `re` with `\w` (UNICODE) classifies
word characters; the data handled by this repository is ASCII plus Hangul
syllables, so `isWordChar` models `\w` as ASCII alphanumerics, underscore and
the Hangul-syllable block U+AC00..U+D7A3 (the same block the source regex
`[가-힣]` names explicitly).  `str.lower`/`str.strip` are modelled by
`String.toLower`/`String.trim`, which agree with CPython on ASCII and on
Hangul (Hangul has no case).
-/

namespace PaiptreeNews

/-- Python slice `s[:n]`, which slices by code point, exactly as
`List.take` on the code points of a Lean string. -/
def strTake (n : Nat) (s : String) : String := String.mk (s.data.take n)

/-- Python substring test `pat in hay` on code points: `pat` occurs as a
contiguous run somewhere in `hay`. -/
def strContains (hay pat : String) : Bool :=
  (List.range (hay.data.length + 1)).any (fun i => pat.data.isPrefixOf (hay.data.drop i))

/-- Python `str.lower()`, mapping `Char.toLower` over the code points (the
value of `String.toLower`, written over the list model so that it reduces). -/
def pyLower (s : String) : String := String.mk (s.data.map Char.toLower)

/-- Python `str.strip()`: drop whitespace from both ends (the value of
`String.trim`, written over the list model so that it reduces). -/
def pyStrip (s : String) : String :=
  String.mk (((s.data.dropWhile Char.isWhitespace).reverse.dropWhile
    Char.isWhitespace).reverse)

/-- Python `str.startswith`. -/
def pyStartsWith (p s : String) : Bool := p.data.isPrefixOf s.data

/-- Python `str.endswith`. -/
def pyEndsWith (p s : String) : Bool := p.data.isSuffixOf s.data

/-- Python `','.join(l)`. -/
def joinComma (l : List String) : String :=
  String.mk (List.intercalate [','] (l.map String.data))

/-- Model of Python re `\w` (UNICODE) for the character repertoire of this
repository: ASCII alphanumerics, underscore, and Hangul syllables. -/
def isWordChar (c : Char) : Bool :=
  c.isAlphanum || c = '_' || (0xAC00 ≤ c.toNat && c.toNat ≤ 0xD7A3)

/-- Index of the first occurrence of `sep` in `s`, if any. -/
def firstIdx (sep s : List Char) : Option Nat :=
  (List.range (s.length + 1)).foldr
    (fun i acc => if sep.isPrefixOf (s.drop i) then some i else acc) none

/-- Index of the last occurrence of `sep` in `s`, if any
(used for Python `str.rsplit(sep, 1)`). -/
def lastIdx (sep s : List Char) : Option Nat :=
  (List.range (s.length + 1)).foldl
    (fun acc i => if sep.isPrefixOf (s.drop i) then some i else acc) none

/-! ### difflib.SequenceMatcher, as used by `calculate_similarity`

`rss_scraper.py` computes title similarity with
`SequenceMatcher(None, a, b).ratio()`: the Ratcliff/Obershelp matching-block
recursion.  `findBest` scans all start pairs in ascending order keeping the
first strictly larger common run, which selects the same block as difflib
`find_longest_match` (earliest start in `a`, then earliest start in `b`,
among blocks of maximal length).  The `autojunk` heuristic of difflib only
activates for a second string of 200+ characters; it is not modelled.
`mbSize` uses a fuel argument (one unit per recursion level); each level
strictly shrinks the combined length of the two lists, so the initial fuel
`a.length + b.length + 1` is never exhausted. -/

/-- Length of the common run of equal characters at the heads of two lists. -/
def commonRunLen : List Char → List Char → Nat
  | a :: as, b :: bs => if a = b then commonRunLen as bs + 1 else 0
  | _, _ => 0

/-- Longest matching block of two character lists: `(i, j, k)` with
`a.drop i` and `b.drop j` agreeing on `k` characters, `k` maximal, earliest
`i` then earliest `j` (difflib `find_longest_match` without junk). -/
def findBest (a b : List Char) : Nat × Nat × Nat :=
  (List.range a.length).foldl
    (fun best i =>
      (List.range b.length).foldl
        (fun best j =>
          let k := commonRunLen (a.drop i) (b.drop j)
          if best.2.2 < k then (i, j, k) else best)
        best)
    (0, 0, 0)

/-- Total size of the difflib matching blocks (the `M` of `ratio = 2M/T`),
by the Ratcliff/Obershelp recursion on both sides of the longest block. -/
def mbSize : Nat → List Char → List Char → Nat
  | 0, _, _ => 0
  | fuel + 1, a, b =>
    let best := findBest a b
    let i := best.1
    let j := best.2.1
    let k := best.2.2
    if k = 0 then 0
    else mbSize fuel (a.take i) (b.take j) + k +
         mbSize fuel (a.drop (i + k)) (b.drop (j + k))

/-- difflib `SequenceMatcher.ratio()` on two character lists, as an exact
rational: `2M / (len a + len b)`, and `1` when both are empty. -/
def smRatioQ (a b : List Char) : ℚ :=
  let t := a.length + b.length
  if t = 0 then 1 else (2 * mbSize (a.length + b.length + 1) a b : ℚ) / t

/-- Embedding of `calculate_similarity` (rss_scraper.py:285-291): strip every non-word
character from both titles (`re.sub(r'[^\w]', '', ...)`) and take the
SequenceMatcher ratio of the results. -/
def calculate_similarity (t1 t2 : String) : ℚ :=
  smRatioQ (t1.data.filter isWordChar) (t2.data.filter isWordChar)

/-! ### News records and `deduplicate_news_comprehensive` -/

/-- One news record, with the keys the scripts put in their `news_item`
dicts.  Datetimes are modelled as integers (Python `datetime` is totally
ordered; only ordering and equality matter to the embedded code).
`upload_date` holds the same resolved publish datetime whose `strftime`
rendering the scripts store. -/
structure NewsItem where
  title : String
  description : String
  category : String
  tags : String
  upload_date : Int
  pub_datetime : Int
  download_count : Nat
  thumbnail_url : String
  original_url : String
deriving DecidableEq, Repr

/-- The title key used by the duplicate scan: `news['title'].lower().strip()`
(rss_scraper.py:302). -/
def dedupTitle (n : NewsItem) : String := pyStrip (pyLower n.title)

/-- The URL key used by the duplicate scan:
`news['original_url'].split('?')[0]` (rss_scraper.py:303), i.e. the prefix
before the first `?`. -/
def clean_url (n : NewsItem) : String :=
  String.mk (n.original_url.data.takeWhile (fun c => c ≠ '?'))

/-- The similarity scan of rss_scraper.py:311-317: some already-kept title is
more than 0.85 similar to the incoming one.  The Python loop breaks at the
first hit, which is `List.any`. -/
def isSimilarSeen (t : String) (seen : List String) : Bool :=
  seen.any (fun s => decide ((17 : ℚ) / 20 < calculate_similarity t s))

/-- Loop body state of `deduplicate_news_comprehensive`: the list still to
process, the kept lowered/stripped titles (in kept order) and the kept
query-stripped URLs (`seen_urls` is a Python set; only membership is ever
used, so a list models it). -/
def dedupAux : List NewsItem → List String → List String → List NewsItem
  | [], _, _ => []
  | n :: rest, seenTitles, seenUrls =>
    if clean_url n ∈ seenUrls then dedupAux rest seenTitles seenUrls
    else if isSimilarSeen (dedupTitle n) seenTitles then dedupAux rest seenTitles seenUrls
    else n :: dedupAux rest (seenTitles ++ [dedupTitle n]) (clean_url n :: seenUrls)

/-- Embedding of `deduplicate_news_comprehensive` (rss_scraper.py:293-326). -/
def deduplicate_news_comprehensive (l : List NewsItem) : List NewsItem :=
  dedupAux l [] []

/-- Re-running the dedup scan from the same accumulator state on its own
output changes nothing: every kept item passed both checks against exactly
the accumulators rebuilt by the second run. -/
theorem dedupAux_idem : ∀ (l : List NewsItem) (ts us : List String),
    dedupAux (dedupAux l ts us) ts us = dedupAux l ts us := by
  intro l
  induction l with
  | nil => intro ts us; rfl
  | cons n rest ih =>
    intro ts us
    by_cases hu : clean_url n ∈ us
    · simp only [dedupAux, if_pos hu]
      exact ih ts us
    · cases ht : isSimilarSeen (dedupTitle n) ts with
      | true =>
        simp [dedupAux, hu, ht]
        exact ih ts us
      | false =>
        simp [dedupAux, hu, ht]
        exact ih (ts ++ [dedupTitle n]) (clean_url n :: us)

/-- Every item kept by the dedup scan has a query-stripped URL outside the
incoming accumulator, and kept items have pairwise distinct query-stripped
URLs (the URL of every kept item is added to `seen_urls` before any later
item is examined). -/
theorem dedupAux_urls : ∀ (l : List NewsItem) (ts us : List String),
    (∀ m ∈ dedupAux l ts us, clean_url m ∉ us) ∧
    (dedupAux l ts us).Pairwise (fun a b => clean_url a ≠ clean_url b) := by
  intro l
  induction l with
  | nil => intro ts us; constructor <;> simp [dedupAux]
  | cons n rest ih =>
    intro ts us
    by_cases hu : clean_url n ∈ us
    · simpa only [dedupAux, if_pos hu] using ih ts us
    · cases ht : isSimilarSeen (dedupTitle n) ts with
      | true =>
        simpa [dedupAux, hu, ht] using ih ts us
      | false =>
        obtain ⟨h1, h2⟩ := ih (ts ++ [dedupTitle n]) (clean_url n :: us)
        simp only [dedupAux, if_neg hu, ht, Bool.false_eq_true, if_false]
        constructor
        · intro m hm
          rcases List.mem_cons.mp hm with rfl | hm'
          · exact hu
          · intro hin
            exact h1 m hm' (List.mem_cons_of_mem _ hin)
        · refine List.Pairwise.cons ?_ h2
          intro b hb heq
          exact h1 b hb (heq ▸ List.mem_cons_self _ _)

/-- Every item kept by the dedup scan is at most 0.85 similar to every title
of the incoming accumulator, and later kept items are at most 0.85 similar
to earlier kept items (the title of every kept item is appended to
`seen_titles` before any later item is examined). -/
theorem dedupAux_titles : ∀ (l : List NewsItem) (ts us : List String),
    (∀ m ∈ dedupAux l ts us, ∀ t ∈ ts,
        ¬ ((17 : ℚ) / 20 < calculate_similarity (dedupTitle m) t)) ∧
    (dedupAux l ts us).Pairwise
      (fun a b => ¬ ((17 : ℚ) / 20 < calculate_similarity (dedupTitle b) (dedupTitle a))) := by
  intro l
  induction l with
  | nil => intro ts us; constructor <;> simp [dedupAux]
  | cons n rest ih =>
    intro ts us
    by_cases hu : clean_url n ∈ us
    · simpa only [dedupAux, if_pos hu] using ih ts us
    · cases ht : isSimilarSeen (dedupTitle n) ts with
      | true =>
        simpa [dedupAux, hu, ht] using ih ts us
      | false =>
        have htProp : ∀ t ∈ ts, ¬ ((17 : ℚ) / 20 < calculate_similarity (dedupTitle n) t) := by
          intro t htmem
          have := List.any_eq_false.mp ht t htmem
          simpa using this
        obtain ⟨h1, h2⟩ := ih (ts ++ [dedupTitle n]) (clean_url n :: us)
        simp only [dedupAux, if_neg hu, ht, Bool.false_eq_true, if_false]
        constructor
        · intro m hm t htmem
          rcases List.mem_cons.mp hm with rfl | hm'
          · exact htProp t htmem
          · exact h1 m hm' t (List.mem_append_left _ htmem)
        · refine List.Pairwise.cons ?_ h2
          intro b hb
          exact h1 b hb (dedupTitle n) (List.mem_append_right _ (List.mem_singleton_self _))

/-- C1: deduplication is idempotent — for every list of news records `L`,
`deduplicate_news_comprehensive (deduplicate_news_comprehensive L)` equals
`deduplicate_news_comprehensive L`. -/
theorem C1_dedup_idempotent (l : List NewsItem) :
    deduplicate_news_comprehensive (deduplicate_news_comprehensive l) =
      deduplicate_news_comprehensive l :=
  dedupAux_idem l [] []

/-- C2: no two records in the output of `deduplicate_news_comprehensive`
share the same normalized `original_url`, where normalization strips the
query string at the first question mark (`clean_url`). -/
theorem C2_dedup_unique_urls (l : List NewsItem) :
    (deduplicate_news_comprehensive l).Pairwise
      (fun a b => clean_url a ≠ clean_url b) :=
  (dedupAux_urls l [] []).2

/-- C3: no two records in the output of `deduplicate_news_comprehensive`
have titles whose character-level similarity ratio — `calculate_similarity`
on the lowercased, stripped titles, which removes all non-word characters
before taking the SequenceMatcher ratio, applied as the code does to the
later title against the earlier stored one — exceeds 0.85. -/
theorem C3_dedup_dissimilar_titles (l : List NewsItem) :
    (deduplicate_news_comprehensive l).Pairwise
      (fun a b => ¬ ((17 : ℚ) / 20 < calculate_similarity (dedupTitle b) (dedupTitle a))) :=
  (dedupAux_titles l [] []).2

/-! ### Feed entries

A feed entry as `feedparser` hands it to the scripts.  The feed-parsing and
date-parsing libraries are outside the repository, so parsed values appear
as data: `published_parsed`/`updated_parsed` hold the already-validated
struct-time fields (absent or falsy gives `none`, and the script rebuilding
a `datetime` from the struct is the identity here), and
`published_dateutil`/`updated_dateutil` hold the result of
`dateutil.parser.parse` on the corresponding string field (`none` when the
field is absent, empty, or unparseable).  `media_thumbnail` is `none` when
the attribute is absent, distinguishing `hasattr` from emptiness.
Enclosures are (type, href) pairs. -/
structure Entry where
  title : String := ""
  description : String := ""
  summary : String := ""
  link : String := ""
  published_parsed : Option Int := none
  updated_parsed : Option Int := none
  published_dateutil : Option Int := none
  updated_dateutil : Option Int := none
  media_thumbnail : Option (List String) := none
  enclosures : List (String × String) := []
deriving DecidableEq, Repr

/-- The description both scripts resolve:
`entry.get('description', '') or entry.get('summary', '')`. -/
def resolvedDescription (e : Entry) : String :=
  if e.description ≠ "" then e.description else e.summary

/-! ### rss_scraper.py helpers -/

/-- Embedding of `extract_source_from_title` (rss_scraper.py:159-168):
split at the last occurrence of a spaced dash (`title.rsplit(' - ', 1)`) and
strip both halves; the source defaults to `"Unknown"`. -/
def extract_source_from_title (title : String) : String × String :=
  match lastIdx " - ".data title.data with
  | some i =>
      (pyStrip (String.mk (title.data.take i)),
       pyStrip (String.mk (title.data.drop (i + 3))))
  | none => (title, "Unknown")

/-- Model of one anchored cleaner `re.sub(r'\s*WORD$', '', s)`: when `s`
ends with the word, remove it together with the whitespace run immediately
before it (the greedy `\s*`). -/
def stripTailWord (w s : String) : String :=
  if pyEndsWith w s then
    String.mk ((((s.data.take (s.data.length - w.data.length))).reverse.dropWhile
      Char.isWhitespace).reverse)
  else s

/-- Model of `re.sub(r'\.{2,}$', '', s)`: remove the trailing run of dots
when it has at least two of them. -/
def dropTrailingDots (s : String) : String :=
  let r := s.data.reverse
  let k := (r.takeWhile (· = '.')).length
  if 2 ≤ k then String.mk ((r.drop k).reverse) else s

/-- Embedding of `clean_source_name` (rss_scraper.py:170-190): drop a
trailing 뉴스/신문/일보 word, surrounding whitespace and trailing dot runs;
fall back to the original when fewer than two characters remain. -/
def clean_source_name (source : String) : String :=
  if source = "" ∨ source = "Unknown" then source
  else
    let s1 := stripTailWord "뉴스" source
    let s2 := stripTailWord "신문" s1
    let s3 := stripTailWord "일보" s2
    let s4 := pyStrip s3
    let s5 := dropTrailingDots s4
    if (pyStrip s5).length < 2 then source else pyStrip s5

/-- Network-location part of a URL, modelling `urlparse(url).netloc` for the
ordinary absolute URLs the feeds carry: the run after the first `://` up to
the next `/`, `?` or `#`; empty when the URL has no `://`. -/
def netlocOf (url : String) : String :=
  match firstIdx "://".data url.data with
  | some i =>
      String.mk ((url.data.drop (i + 3)).takeWhile
        (fun c => c ≠ '/' ∧ c ≠ '?' ∧ c ≠ '#'))
  | none => ""

/-- Embedding of `extract_domain_name` (rss_scraper.py:149-157): netloc with
a leading `www.` removed, then the label before the first dot, or
`"Unknown"` for an empty domain. -/
def extract_domain_name (url : String) : String :=
  let domain := netlocOf url
  let domain := if pyStartsWith "www." domain then String.mk (domain.data.drop 4) else domain
  if domain = "" then "Unknown" else String.mk (domain.data.takeWhile (fun c => c ≠ '.'))

/-- Embedding of `extract_publish_date` (rss_scraper.py:192-211): the first
available of `published_parsed`, `updated_parsed`, parsed `published`,
parsed `updated`, else the current time. -/
def extract_publish_date (now : Int) (e : Entry) : Int :=
  (e.published_parsed <|> e.updated_parsed <|> e.published_dateutil <|>
    e.updated_dateutil).getD now

/-- Scanner for `re.sub(r'<[^>]+>', '', s)`: at a `<`, a nonempty run of
non-`>` characters followed by `>` is a match and is dropped; otherwise the
`<` is kept and scanning resumes on the next character (leftmost
non-overlapping matches, exactly the regex).  The fuel argument only serves
termination; one unit is spent per character consumed, so `l.length` fuel is
never exhausted. -/
def stripTagsFuel : Nat → List Char → List Char
  | 0, l => l
  | _, [] => []
  | fuel + 1, c :: rest =>
    if c = '<' then
      if (rest.takeWhile (· ≠ '>')).isEmpty then c :: stripTagsFuel fuel rest
      else
        match rest.dropWhile (· ≠ '>') with
        | _ :: r2 => stripTagsFuel fuel r2
        | [] => c :: stripTagsFuel fuel rest
    else c :: stripTagsFuel fuel rest

/-- HTML-tag removal step of `clean_description`. -/
def stripTags (s : String) : String := String.mk (stripTagsFuel s.data.length s.data)

/-- Scanner for `re.sub(r'\s+', ' ', s)`: each maximal whitespace run
becomes a single space.  The flag records whether the previous character was
whitespace. -/
def collapseWsGo : Bool → List Char → List Char
  | _, [] => []
  | prevWs, c :: rest =>
    if c.isWhitespace then
      if prevWs then collapseWsGo true rest else ' ' :: collapseWsGo true rest
    else c :: collapseWsGo false rest

/-- Character whitelist of `re.sub(r'[^\w\s\.\,\!\?\:\;\(\)\-\'\"…]', '', s)`
in `clean_description`: word characters, whitespace and the listed
punctuation survive; everything else — including `<` and `>` — is removed. -/
def isAllowedDescChar (c : Char) : Bool :=
  isWordChar c || c.isWhitespace ||
    c ∈ ['.', ',', '!', '?', ':', ';', '(', ')', '-', '\'', '\"', '…']

/-- Placeholder description used by `clean_description` for empty or
too-short cleaned text. -/
def placeholderDesc : String := "뉴스 내용은 원문 링크에서 확인하세요"

/-- Embedding of `clean_description` (rss_scraper.py:213-234).  HTML entity
decoding is done by the external `html.unescape`, passed in as `unescape`. -/
def clean_description (unescape : String → String) (raw : String) : String :=
  if raw = "" then placeholderDesc
  else
    let t1 := stripTags raw
    let t2 := unescape t1
    let t3 := pyStrip (String.mk (collapseWsGo false t2.data))
    let t4 := String.mk (t3.data.filter isAllowedDescChar)
    if t4 = "" ∨ (pyStrip t4).length < 10 then placeholderDesc
    else strTake 500 t4

/-! ### extract_common_keywords (rss_scraper.py:236-283)

CPython iterates its `set`s in an unspecified hash order; the embedding
keeps first-occurrence order throughout (dedupFirst below), which fixes one
member of the behaviours the source admits.  `sorted(key=len, reverse=True)`
is a stable descending sort, modelled by stable insertion. -/

/-- Hangul-syllable test, the `[가-힣]` class of the source regex. -/
def isHangul (c : Char) : Bool := 0xAC00 ≤ c.toNat && c.toNat ≤ 0xD7A3

/-- ASCII letter test, the `[a-zA-Z]` class of the source regex. -/
def isAsciiLetter (c : Char) : Bool :=
  ('a' ≤ c && c ≤ 'z') || ('A' ≤ c && c ≤ 'Z')

/-- Model of `re.sub(r'[^\w\s]', ' ', s)`: non-word, non-space characters
become spaces. -/
def wordSpaceClean (s : String) : String :=
  String.mk (s.data.map (fun c => if isWordChar c || c.isWhitespace then c else ' '))

/-- Flush the token accumulator of the findall scanner: a Hangul run counts
from two characters, an ASCII-letter run from three (`[가-힣]{2,}|[a-zA-Z]{3,}`). -/
def flushTok (kind : Option Bool) (acc : List Char) : List String :=
  match kind with
  | some true => if 2 ≤ acc.length then [String.mk acc.reverse] else []
  | some false => if 3 ≤ acc.length then [String.mk acc.reverse] else []
  | none => []

/-- Scanner for `re.findall(r'[가-힣]{2,}|[a-zA-Z]{3,}', s)`: maximal Hangul
and ASCII-letter runs, kept when long enough.  `kind` is the type of the
current run (`some true` Hangul, `some false` ASCII), `acc` the reversed
run. -/
def findTokensGo : Option Bool → List Char → List Char → List String
  | kind, acc, [] => flushTok kind acc
  | kind, acc, c :: rest =>
    if isHangul c then
      match kind with
      | some true => findTokensGo (some true) (c :: acc) rest
      | _ => flushTok kind acc ++ findTokensGo (some true) [c] rest
    else if isAsciiLetter c then
      match kind with
      | some false => findTokensGo (some false) (c :: acc) rest
      | _ => flushTok kind acc ++ findTokensGo (some false) [c] rest
    else flushTok kind acc ++ findTokensGo none [] rest

/-- Word tokens of a cleaned text, in occurrence order. -/
def findTokens (s : String) : List String := findTokensGo none [] s.data

/-- First-occurrence deduplication (the membership content of a Python set,
iterated in insertion order). -/
def dedupFirstAux : List String → List String → List String
  | _, [] => []
  | seen, x :: xs =>
    if x ∈ seen then dedupFirstAux seen xs else x :: dedupFirstAux (x :: seen) xs

/-- First-occurrence deduplication of a list of strings. -/
def dedupFirst (l : List String) : List String := dedupFirstAux [] l

/-- Stop words removed from keyword candidates (rss_scraper.py:253-259). -/
def stop_words : List String :=
  ["파이프트리", "paiptree", "파머스마인드", "farmersmind",
   "회사", "기업", "서비스", "시스템", "플랫폼",
   "통해", "위해", "때문", "경우", "방법", "과정", "결과",
   "뉴스", "기사", "내용", "링크", "확인", "원문", "발표",
   "관련", "대한", "있는", "없는", "이번", "올해", "내년"]

/-- Priority keywords put first in the tag list (rss_scraper.py:264-270). -/
def priority_keywords : List String :=
  ["ai", "인공지능", "스마트팜", "축산", "양계", "농가",
   "투자", "펀딩", "협력", "진출", "해외", "디지털",
   "솔루션", "기술", "혁신", "스타트업", "그린랩스",
   "조류독감", "질병예찰", "생계물류", "관제시스템",
   "토자이", "cpf", "한호운수", "건국대"]

/-- Insert keeping a descending-by-length list stable: the new element goes
after every existing element of equal or greater length. -/
def insertLenDesc (x : String) : List String → List String
  | [] => [x]
  | y :: ys => if y.length < x.length then x :: y :: ys else y :: insertLenDesc x ys

/-- Stable sort by length, descending: `sorted(key=len, reverse=True)`. -/
def sortLenDesc (l : List String) : List String :=
  l.foldl (fun acc x => insertLenDesc x acc) []

/-- Embedding of `extract_common_keywords` (rss_scraper.py:236-283). -/
def extract_common_keywords (title description : String) : List String :=
  if title = "" ∨ description = "" then []
  else
    let titleTokens := findTokens (wordSpaceClean (pyLower title))
    let descTokens := findTokens (wordSpaceClean (pyLower description))
    let commonW := (dedupFirst titleTokens).filter (fun w => w ∈ descTokens)
    let filtered := commonW.filter
      (fun w => decide (w ∉ stop_words) && decide (2 ≤ w.length))
    let priorityW := filtered.filter (fun w => pyLower w ∈ priority_keywords)
    let otherW := filtered.filter (fun w => pyLower w ∉ priority_keywords)
    ((sortLenDesc priorityW).take 2 ++ (sortLenDesc otherW).take 1).take 3

/-! ### fetch_rss_news (rss_scraper.py:328-441)

Network effects are parameters: `fetchImage` stands for the
`process_article_image` pipeline (web scrape + optimize + Drive upload; it
returns a public URL or nothing), `unescape` for `html.unescape`, `now` for
`datetime.now()`. -/

/-- Placeholder thumbnail used when every image source fails
(rss_scraper.py:418). -/
def rssPlaceholderImage : String :=
  "https://via.placeholder.com/300x200/00B0EB/FFFFFF?text=Paiptree+News"

/-- Hardcoded search keywords `KEYWORDS` shared by both scripts. -/
def KEYWORDS : List String := ["파이프트리", "파머스마인드", "paiptree", "farmersmind"]

/-- Seven days, the recency window `timedelta(days=7)` in seconds. -/
def sevenDaysSec : Int := 7 * 86400

/-- Loop body of `fetch_rss_news` (rss_scraper.py:361-434) for a single feed
entry: strip the source from the title, resolve the category, keyword-match
against the cleaned title plus description, and build the record, or return
nothing when no keyword matches. -/
def processEntryRss (unescape : String → String) (fetchImage : String → Option String)
    (now : Int) (keywords : List String) (e : Entry) : Option NewsItem :=
  let raw_description := resolvedDescription e
  let parts := extract_source_from_title e.title
  let clean_title := parts.1
  let source0 := clean_source_name parts.2
  let source := if source0 = "Unknown" then extract_domain_name e.link else source0
  let content := pyLower (clean_title ++ " " ++ raw_description)
  let matched := keywords.filter (fun kw => strContains content (pyLower kw))
  if matched.isEmpty then none
  else
    let pub := extract_publish_date now e
    let clean_desc := clean_description unescape raw_description
    let commonKw := extract_common_keywords clean_title clean_desc
    let tags :=
      if commonKw.isEmpty then joinComma matched
      else joinComma commonKw
    let thumb0 : String :=
      match e.media_thumbnail with
      | some (u :: _) => u
      | _ =>
        match e.enclosures.find? (fun enc => pyStartsWith "image/" enc.1) with
        | some enc => enc.2
        | none => ""
    let thumb1 :=
      if thumb0 = "" && e.link ≠ "" then (fetchImage e.link).getD "" else thumb0
    let thumbnail := if thumb1 = "" then rssPlaceholderImage else thumb1
    some
      { title := if clean_title ≠ "" then strTake 200 clean_title else "제목 없음"
        description := clean_desc
        category := source
        tags := tags
        upload_date := pub
        pub_datetime := pub
        download_count := 0
        thumbnail_url := thumbnail
        original_url := e.link }

/-- Recency stage of `fetch_rss_news` (rss_scraper.py:344-358): outside
initial mode keep exactly the entries whose resolved publish date is at most
seven days before now. -/
def recentEntriesRss (now : Int) (initialMode : Bool) (entries : List Entry) : List Entry :=
  if initialMode then entries
  else entries.filter (fun e => decide (now - sevenDaysSec ≤ extract_publish_date now e))

/-- Embedding of `fetch_rss_news` (rss_scraper.py:328-441): the recency
stage followed by the per-entry loop, collecting the built records. -/
def fetch_rss_news (unescape : String → String) (fetchImage : String → Option String)
    (now : Int) (keywords : List String) (initialMode : Bool)
    (entries : List Entry) : List NewsItem :=
  (recentEntriesRss now initialMode entries).filterMap
    (processEntryRss unescape fetchImage now keywords)

/-! ### rss_scraper_enhanced.py -/

/-- Keyword-to-default-image table of `get_default_image_by_keywords`
(rss_scraper_enhanced.py:268-273). -/
def default_images : List (String × String) :=
  [("paiptree", "https://example.com/paiptree-logo.jpg"),
   ("farmersmind", "https://example.com/farmersmind-logo.jpg"),
   ("파이프트리", "https://example.com/paiptree-kr.jpg"),
   ("파머스마인드", "https://example.com/farmersmind-kr.jpg")]

/-- Dictionary lookup `default_images[keyword.lower()]`. -/
def lookupDefaultImage (kw : String) : Option String :=
  (default_images.find? (fun p => decide (p.1 = pyLower kw))).map (·.2)

/-- Embedding of `get_default_image_by_keywords`
(rss_scraper_enhanced.py:265-281): the image of the first matched keyword
found in the table, else empty. -/
def get_default_image_by_keywords : List String → String
  | [] => ""
  | kw :: rest =>
    match lookupDefaultImage kw with
    | some u => u
    | none => get_default_image_by_keywords rest

/-- Loop body of the enhanced `fetch_rss_news`
(rss_scraper_enhanced.py:140-213) for a single entry: keyword-match against
the raw title plus description and build the record.  `imageScraper` stands
for `ArticleImageScraper.extract_largest_image` on the article link,
`feedTitle` for `feed.feed.get('title', 'Unknown')`. -/
def processEntryEnhanced (imageScraper : String → Option String) (now : Int)
    (feedTitle : String) (keywords : List String) (e : Entry) : Option NewsItem :=
  let description := resolvedDescription e
  let content := pyLower (e.title ++ " " ++ description)
  let matched := keywords.filter (fun kw => strContains content (pyLower kw))
  if matched.isEmpty then none
  else
    let pub := e.published_parsed.getD now
    let thumb0 : String :=
      match e.media_thumbnail with
      | some l => l.headD ""
      | none =>
        match e.enclosures.find? (fun enc => pyStartsWith "image/" enc.1) with
        | some enc => enc.2
        | none => ""
    let thumb1 :=
      if thumb0 = "" && e.link ≠ "" then (imageScraper e.link).getD "" else thumb0
    let thumbnail := if thumb1 = "" then get_default_image_by_keywords matched else thumb1
    some
      { title := strTake 200 e.title
        description := strTake 500 description
        category := feedTitle
        tags := joinComma matched
        upload_date := pub
        pub_datetime := pub
        download_count := 0
        thumbnail_url := thumbnail
        original_url := e.link }

/-- Recency stage of the enhanced `fetch_rss_news`
(rss_scraper_enhanced.py:118-135): outside initial mode, entries with a
`published_parsed` older than seven days are dropped and entries without one
are kept as recent. -/
def recentEntriesEnhanced (now : Int) (initialMode : Bool)
    (entries : List Entry) : List Entry :=
  if initialMode then entries
  else entries.filter (fun e =>
    match e.published_parsed with
    | some d => decide (now - sevenDaysSec ≤ d)
    | none => true)

/-- Embedding of the enhanced `fetch_rss_news`
(rss_scraper_enhanced.py:102-220). -/
def fetch_rss_news_enhanced (imageScraper : String → Option String) (now : Int)
    (feedTitle : String) (keywords : List String) (initialMode : Bool)
    (entries : List Entry) : List NewsItem :=
  (recentEntriesEnhanced now initialMode entries).filterMap
    (processEntryEnhanced imageScraper now feedTitle keywords)

/-! ### Record ordering before the append loop (both main functions) -/

/-- Sort comparator of `list.sort(key=lambda x: x.get('pub_datetime', ...))`:
all records carry a `pub_datetime`, so the key is that field. -/
def pubLe (a b : NewsItem) : Bool := decide (a.pub_datetime ≤ b.pub_datetime)

/-- Record list of `main` in rss_scraper.py (lines 519-531) at the moment
the append loop starts: comprehensive dedup, then the stable sort by publish
datetime (Python `list.sort` is stable; `List.mergeSort` is the stable sort
with the same comparator). -/
def mainRecordOrder (items : List NewsItem) : List NewsItem :=
  (deduplicate_news_comprehensive items).mergeSort pubLe

/-- Record list of `main` in rss_scraper_enhanced.py (lines 368-374) at the
moment the append loop starts: the stable sort by publish datetime, with no
dedup pass. -/
def mainRecordOrderEnhanced (items : List NewsItem) : List NewsItem :=
  items.mergeSort pubLe

/-! ### web_scraper.py — ArticleImageScraper.extract_largest_image

The HTML-parsing library is external; a page is modelled as the candidate
image references the `BeautifulSoup` queries would yield, in query order:
the `og:image` content, the `src`/`data-src`/`data-original` values found
under the article content selectors, and the general `<img src>` values (of
which the code examines the first ten).  The HTTP size probe
`_get_actual_image_size` is the `sizeOf` parameter; `_optimize_image` is the
`optimize` parameter.  CPython accumulates candidates in a `set` whose
iteration order is unspecified; the embedding keeps first-insertion order. -/

/-- A page as seen by the candidate-collection queries. -/
structure PageModel where
  ogImage : Option String := none
  articleImgs : List String := []
  generalImgs : List String := []
deriving Repr

/-- A measured candidate (the dict appended to `image_sizes`,
web_scraper.py:89-94). -/
structure ImgInfo where
  url : String
  width : Nat
  height : Nat
  area : Nat
deriving DecidableEq, Repr

/-- Exclusion substrings of `_is_excluded_image` (web_scraper.py:259-271). -/
def exclude_keywords : List String :=
  ["logo", "icon", "favicon", "symbol", "brand",
   "header", "footer", "nav", "menu", "sidebar",
   "banner", "ad", "advertisement", "sponsor",
   "social", "share", "facebook", "twitter", "instagram",
   "avatar", "profile", "author", "writer", "reporter",
   "button", "arrow", "loading", "spinner",
   "placeholder", "default", "blank", "thumb",
   "thumbnail_default", "no-image", "noimage",
   "google", "youtube", "naver", "kakao", "daum",
   "1x1", "pixel", "tracking", "analytics",
   "print", "email", "bookmark", "subscribe"]

/-- ASCII digit test. -/
def isDigitCh (c : Char) : Bool := '0' ≤ c && c ≤ '9'

/-- Nonzero ASCII digit test, the `[1-9]` class. -/
def isNonzeroDigit (c : Char) : Bool := '1' ≤ c && c ≤ '9'

/-- Whether the character at index `i` exists and is a word character (for
regex `\b` boundaries, whose word class is `\w`). -/
def charAtIsWord (l : List Char) (i : Nat) : Bool :=
  match l.drop i with
  | c :: _ => isWordChar c
  | [] => false

/-- Word boundary immediately before index `i`, given that the character at
`i` is a word character: start of string or a non-word predecessor. -/
def boundaryBefore (l : List Char) (i : Nat) : Bool :=
  i = 0 || !charAtIsWord l (i - 1)

/-- Existence of a match of `\b\d{1,2}x\d{1,2}\b` (web_scraper.py:280): some
start index with a word boundary, one or two digits, an `x`, one or two
digits, and a word boundary after. -/
def smallSizeToken (l : List Char) : Bool :=
  (List.range l.length).any (fun i =>
    boundaryBefore l i &&
    ([1, 2].any (fun d1 => [1, 2].any (fun d2 =>
      let seg := l.drop i
      decide ((seg.take d1).length = d1) && (seg.take d1).all isDigitCh &&
      (match seg.drop d1 with
       | 'x' :: rest2 =>
         decide ((rest2.take d2).length = d2) && (rest2.take d2).all isDigitCh &&
         !charAtIsWord rest2 d2
       | _ => false)))))

/-- Existence of a match of `\b[1-9]\dx[1-9]\d\b` (web_scraper.py:281):
some start index with a word boundary, a nonzero digit, a digit, an `x`, a
nonzero digit, a digit, and a word boundary after. -/
def mediumSizeToken (l : List Char) : Bool :=
  (List.range l.length).any (fun i =>
    boundaryBefore l i &&
    (match l.drop i with
     | a :: b :: x :: c :: d :: rest =>
       isNonzeroDigit a && isDigitCh b && x = 'x' && isNonzeroDigit c && isDigitCh d &&
       !(match rest with
         | e :: _ => isWordChar e
         | [] => false)
     | _ => false))

/-- Decimal value of a digit run. -/
def digitsToNat (l : List Char) : Nat :=
  l.foldl (fun n c => n * 10 + (c.toNat - '0'.toNat)) 0

/-- Match of `\b(\d+)x(\d+)\b` starting at index `i`: the greedy digit run
must be followed by `x`, then a second digit run with a word boundary after
it (a shorter, backtracked run would abut a digit, which is a word
character, so greediness is forced). -/
def sizeMatchAt (l : List Char) (i : Nat) : Option (Nat × Nat) :=
  if !boundaryBefore l i then none
  else
    let seg := l.drop i
    let d1 := seg.takeWhile isDigitCh
    if d1.isEmpty then none
    else
      match seg.drop d1.length with
      | 'x' :: rest2 =>
        let d2 := rest2.takeWhile isDigitCh
        if d2.isEmpty then none
        else if charAtIsWord rest2 d2.length then none
        else some (digitsToNat d1, digitsToNat d2)
      | _ => none

/-- First match of `\b(\d+)x(\d+)\b` in the list, the
`re.search(r'\b(\d+)x(\d+)\b', url)` of web_scraper.py:286. -/
def firstSizeMatch (l : List Char) : Option (Nat × Nat) :=
  (List.range l.length).foldr
    (fun i acc =>
      match sizeMatchAt l i with
      | some r => some r
      | none => acc) none

/-- Embedding of `_is_excluded_image` (web_scraper.py:251-292): empty URLs
are excluded, then the lowercased URL is scanned for the exclusion
substrings, then — only when one of the two small-size token patterns occurs
— the first `\b(\d+)x(\d+)\b` match is parsed and a width under 200 or a
height under 150 excludes the URL. -/
def _is_excluded_image (url : String) : Bool :=
  if url = "" then true
  else
    let lower := pyLower url
    if exclude_keywords.any (fun k => strContains lower k) then true
    else if smallSizeToken url.data || mediumSizeToken url.data then
      match firstSizeMatch url.data with
      | some wh => decide (wh.1 < 200) || decide (wh.2 < 150)
      | none => false
    else false

/-- Scheme of a URL as `urlparse` extracts it: the lowercased run before the
first colon when it starts with a letter and continues with
letters/digits/`+`/`-`/`.`; empty otherwise. -/
def schemeOf (url : String) : String :=
  match firstIdx [':'] url.data with
  | some i =>
    match url.data.take i with
    | [] => ""
    | c :: restPre =>
      if c.isAlpha && restPre.all (fun d => d.isAlphanum || d = '+' || d = '-' || d = '.') then
        String.mk ((c :: restPre).map Char.toLower)
      else ""
  | none => ""

/-- Embedding of `_is_valid_image_url` (web_scraper.py:224-249): nonempty,
and either root-relative (leading slash) or carrying an http/https scheme
(the extension check of the source accepts everything, since its fallthrough
returns True). -/
def _is_valid_image_url (url : String) : Bool :=
  if url = "" then false
  else if pyStartsWith "/" url then true
  else schemeOf url = "http" || schemeOf url = "https"

/-- Scheme plus network location of a base URL (`scheme://netloc`). -/
def originOf (base : String) : String :=
  match firstIdx "://".data base.data with
  | some i =>
    String.mk (base.data.take (i + 3) ++
      (base.data.drop (i + 3)).takeWhile (fun c => c ≠ '/' ∧ c ≠ '?' ∧ c ≠ '#'))
  | none => ""

/-- Model of `urllib.parse.urljoin(base, url)` for the URL shapes
`_is_valid_image_url` admits: an absolute URL with a scheme stays itself, a
protocol-relative `//host/...` borrows the scheme of the base, and a
root-relative `/...` is attached to the origin of the base. -/
def urljoinModel (base url : String) : String :=
  if schemeOf url ≠ "" then url
  else if pyStartsWith "//" url then
    (if schemeOf base ≠ "" then schemeOf base ++ ":" ++ url else url)
  else if pyStartsWith "/" url then originOf base ++ url
  else url

/-- Candidate filter applied to every raw reference before it is joined and
collected (web_scraper.py:44, 59, 69). -/
def admissibleSrc (s : String) : Bool := _is_valid_image_url s && !_is_excluded_image s

/-- Every raw candidate reference of a page, in query order; only the first
ten general images are examined (`general_images[:10]`). -/
def pageSrcs (page : PageModel) : List String :=
  page.ogImage.toList ++ page.articleImgs ++ page.generalImgs.take 10

/-- All joined URLs a page can contribute: the admissible raw references,
resolved against the article URL. -/
def admissibleImages (articleUrl : String) (page : PageModel) : List String :=
  ((pageSrcs page).filter admissibleSrc).map (urljoinModel articleUrl)

/-- Candidate collection of `extract_largest_image` (web_scraper.py:38-73):
og:image and article-selector images are always considered, general images
only when fewer than five candidates were found so far. -/
def collectCandidates (articleUrl : String) (page : PageModel) : List String :=
  let og := (page.ogImage.toList.filter admissibleSrc).map (urljoinModel articleUrl)
  let art := (page.articleImgs.filter admissibleSrc).map (urljoinModel articleUrl)
  let base := dedupFirst (og ++ art)
  if base.length < 5 then
    dedupFirst (og ++ art ++
      ((page.generalImgs.take 10).filter admissibleSrc).map (urljoinModel articleUrl))
  else base

/-- Size-measuring stage (web_scraper.py:80-99): probe at most fifteen
candidates, keep those whose measured size is known and at least 200×150,
recording width, height and pixel area. -/
def measureCandidates (sizeOf : String → Option (Nat × Nat))
    (cands : List String) : List ImgInfo :=
  (cands.take 15).filterMap (fun u =>
    match sizeOf u with
    | some wh =>
      if 200 ≤ wh.1 && 150 ≤ wh.2 then some ⟨u, wh.1, wh.2, wh.1 * wh.2⟩ else none
    | none => none)

/-- Python `max(image_sizes, key=lambda x: x['area'])`: the first candidate
of maximal area (strictly larger area replaces the current best). -/
def selectLargest : List ImgInfo → Option ImgInfo
  | [] => none
  | x :: xs => some (xs.foldl (fun m y => if m.area < y.area then y else m) x)

/-- The winning measured image of `extract_largest_image` for a page. -/
def selectedImage (articleUrl : String) (page : PageModel)
    (sizeOf : String → Option (Nat × Nat)) : Option ImgInfo :=
  selectLargest (measureCandidates sizeOf (collectCandidates articleUrl page))

/-- Embedding of `extract_largest_image` (web_scraper.py:24-124): the
winning image is returned as its optimized form when requested and
optimization succeeds, and as its URL otherwise. -/
def extract_largest_image (articleUrl : String) (page : PageModel)
    (sizeOf : String → Option (Nat × Nat)) (optimize : String → Option String)
    (returnOptimized : Bool) : Option String :=
  (selectedImage articleUrl page sizeOf).map (fun best =>
    if returnOptimized then (optimize best.url).getD best.url else best.url)

/-! ### Claim C4 — keyword gating of the entry filter -/

/-- A keyword filter keeps something iff some keyword matches. -/
theorem keywordMatch_iff (kws : List String) (content : String) :
    ((kws.filter (fun kw => strContains content (pyLower kw))).isEmpty = false) ↔
      ∃ kw ∈ kws, strContains content (pyLower kw) = true := by
  rw [List.isEmpty_eq_false, Ne, List.filter_eq_nil_iff]
  push_neg
  simp

/-- The loop body of rss_scraper.py produces a record iff some keyword
occurs in the cleaned title joined to the description. -/
theorem processEntryRss_isSome (unescape : String → String)
    (fetchImage : String → Option String) (now : Int) (keywords : List String)
    (e : Entry) :
    (processEntryRss unescape fetchImage now keywords e).isSome = true ↔
      ∃ kw ∈ keywords,
        strContains (pyLower ((extract_source_from_title e.title).1 ++ " " ++
          resolvedDescription e)) (pyLower kw) = true := by
  rw [← keywordMatch_iff keywords
    (pyLower ((extract_source_from_title e.title).1 ++ " " ++ resolvedDescription e))]
  simp only [processEntryRss]
  cases hM : (keywords.filter (fun kw =>
      strContains (pyLower ((extract_source_from_title e.title).1 ++ " " ++
        resolvedDescription e)) (pyLower kw))).isEmpty <;>
    simp [hM]

/-- The loop body of rss_scraper_enhanced.py produces a record iff some
keyword occurs in the raw title joined to the description. -/
theorem processEntryEnhanced_isSome (imageScraper : String → Option String)
    (now : Int) (feedTitle : String) (keywords : List String) (e : Entry) :
    (processEntryEnhanced imageScraper now feedTitle keywords e).isSome = true ↔
      ∃ kw ∈ keywords,
        strContains (pyLower (e.title ++ " " ++ resolvedDescription e)) (pyLower kw) = true := by
  rw [← keywordMatch_iff keywords (pyLower (e.title ++ " " ++ resolvedDescription e))]
  simp only [processEntryEnhanced]
  cases hM : (keywords.filter (fun kw =>
      strContains (pyLower (e.title ++ " " ++ resolvedDescription e)) (pyLower kw))).isEmpty <;>
    simp [hM]

/-- C4 (amended): an entry contributes a record iff at least one keyword
occurs case-insensitively in the title part joined by a space to the
resolved description — where rss_scraper_enhanced.py uses the raw entry
title and rss_scraper.py uses the cleaned title with any trailing
source suffix after the last spaced dash removed, so keywords occurring
only in that suffix do not count there. -/
theorem C4_keyword_gate (unescape : String → String)
    (fetchImage imageScraper : String → Option String) (now : Int)
    (feedTitle : String) (keywords : List String) (e : Entry) :
    ((processEntryRss unescape fetchImage now keywords e).isSome = true ↔
      ∃ kw ∈ keywords,
        strContains (pyLower ((extract_source_from_title e.title).1 ++ " " ++
          resolvedDescription e)) (pyLower kw) = true) ∧
    ((processEntryEnhanced imageScraper now feedTitle keywords e).isSome = true ↔
      ∃ kw ∈ keywords,
        strContains (pyLower (e.title ++ " " ++ resolvedDescription e)) (pyLower kw) = true) :=
  ⟨processEntryRss_isSome unescape fetchImage now keywords e,
   processEntryEnhanced_isSome imageScraper now feedTitle keywords e⟩

/-- Entry whose keyword occurrence lies only in the source suffix of the
title. -/
def entryX : Entry := { title := "abc - paiptree", description := "xyz" }

/-- C4 (counterexample): the keyword `paiptree` does occur in the entry
title joined to the description, yet rss_scraper.py produces no record for
the entry, because its matching runs on the cleaned title with the
`" - paiptree"` suffix stripped. -/
theorem C4_counterexample :
    processEntryRss (fun s => s) (fun _ => none) 0 ["paiptree"] entryX = none ∧
    strContains (pyLower (entryX.title ++ " " ++ entryX.description)) "paiptree" = true := by
  decide

/-- C4 (witness): a concrete matching entry is kept by the enhanced loop
body. -/
theorem C4_witness :
    (processEntryEnhanced (fun _ => none) 0 "Feed" ["paiptree"]
      { title := "paiptree wins", description := "story" }).isSome = true :=
  (C4_keyword_gate (fun s => s) (fun _ => none) (fun _ => none) 0 "Feed" ["paiptree"]
    { title := "paiptree wins", description := "story" }).2.mpr
    ⟨"paiptree", by decide, by decide⟩

/-! ### Claim C5 — field length limits and HTML stripping -/

/-- Python slicing `s[:n]` yields at most `n` code points. -/
theorem strTake_length_le (n : Nat) (s : String) : (strTake n s).length ≤ n := by
  show (s.data.take n).length ≤ n
  exact List.length_take_le n s.data

/-- The cleaned description of rss_scraper.py never exceeds 500 characters:
it is either the fixed placeholder or a 500-slice. -/
theorem clean_description_length_le (unescape : String → String) (raw : String) :
    (clean_description unescape raw).length ≤ 500 := by
  simp only [clean_description]
  split
  · decide
  · split
    · decide
    · exact strTake_length_le 500 _

/-- The cleaned description of rss_scraper.py contains no `<`: the final
character whitelist removes it, and the placeholder never had one. -/
theorem clean_description_no_lt (unescape : String → String) (raw : String) :
    '<' ∉ (clean_description unescape raw).data := by
  simp only [clean_description]
  split
  · decide
  · split
    · decide
    · intro hmem
      have h1 : '<' ∈ (String.mk (((pyStrip (String.mk (collapseWsGo false
          (unescape (stripTags raw)).data))).data).filter isAllowedDescChar)).data :=
        List.mem_of_mem_take hmem
      have h2 := List.of_mem_filter h1
      exact absurd h2 (by decide)

/-- Record shape produced by the rss_scraper.py loop body. -/
theorem processEntryRss_some_shape {unescape : String → String}
    {fetchImage : String → Option String} {now : Int} {keywords : List String}
    {e : Entry} {r : NewsItem}
    (h : processEntryRss unescape fetchImage now keywords e = some r) :
    r.title = (if (extract_source_from_title e.title).1 ≠ "" then
        strTake 200 (extract_source_from_title e.title).1 else "제목 없음") ∧
    r.description = clean_description unescape (resolvedDescription e) := by
  simp only [processEntryRss] at h
  split at h
  · exact absurd h (by simp)
  · cases h
    exact ⟨rfl, rfl⟩

/-- Record shape produced by the rss_scraper_enhanced.py loop body. -/
theorem processEntryEnhanced_some_shape {imageScraper : String → Option String}
    {now : Int} {feedTitle : String} {keywords : List String} {e : Entry} {r : NewsItem}
    (h : processEntryEnhanced imageScraper now feedTitle keywords e = some r) :
    r.title = strTake 200 e.title ∧
    r.description = strTake 500 (resolvedDescription e) := by
  simp only [processEntryEnhanced] at h
  split at h
  · exact absurd h (by simp)
  · cases h
    exact ⟨rfl, rfl⟩

/-- C5 (amended): every record produced by either loop body has a title of
at most 200 characters and a description of at most 500 characters; in
rss_scraper.py the description is additionally HTML-stripped (it contains no
`<` at all), while rss_scraper_enhanced.py truncates the raw description
without stripping tags. -/
theorem C5_record_limits (unescape : String → String)
    (fetchImage imageScraper : String → Option String) (now : Int)
    (feedTitle : String) (keywords : List String) (e : Entry) :
    (∀ r, processEntryRss unescape fetchImage now keywords e = some r →
      r.title.length ≤ 200 ∧ r.description.length ≤ 500 ∧ '<' ∉ r.description.data) ∧
    (∀ r, processEntryEnhanced imageScraper now feedTitle keywords e = some r →
      r.title.length ≤ 200 ∧ r.description.length ≤ 500) := by
  constructor
  · intro r h
    obtain ⟨ht, hd⟩ := processEntryRss_some_shape h
    refine ⟨?_, ?_, ?_⟩
    · rw [ht]
      split
      · exact strTake_length_le 200 _
      · decide
    · rw [hd]; exact clean_description_length_le unescape _
    · rw [hd]; exact clean_description_no_lt unescape _
  · intro r h
    obtain ⟨ht, hd⟩ := processEntryEnhanced_some_shape h
    exact ⟨ht ▸ strTake_length_le 200 _, hd ▸ strTake_length_le 500 _⟩

/-- Entry with an HTML-tagged description, fed to the enhanced script. -/
def entryY : Entry := { title := "paiptree news", description := "<p>hi</p>" }

/-- The record the enhanced loop body builds from `entryY`. -/
def recordY : NewsItem :=
  { title := "paiptree news", description := "<p>hi</p>", category := "F",
    tags := "paiptree", upload_date := 0, pub_datetime := 0, download_count := 0,
    thumbnail_url := "https://example.com/paiptree-logo.jpg", original_url := "" }

/-- C5 (counterexample): rss_scraper_enhanced.py stores the raw description
truncated but not HTML-stripped — the produced record still contains a
`<p>` tag, refuting the claim that every revision strips HTML. -/
theorem C5_counterexample :
    processEntryEnhanced (fun _ => none) 0 "F" ["paiptree"] entryY = some recordY ∧
    '<' ∈ recordY.description.data := by
  decide

/-- C5 (witness): the limits hold at the concrete enhanced record. -/
theorem C5_witness :
    recordY.title.length ≤ 200 ∧ recordY.description.length ≤ 500 :=
  (C5_record_limits (fun s => s) (fun _ => none) (fun _ => none) 0 "F"
    ["paiptree"] entryY).2 recordY (by decide)

/-! ### Claim C6 — recency window -/

/-- An entry has no parseable publish date when all four date sources are
absent. -/
def noParseableDate (e : Entry) : Bool :=
  e.published_parsed.isNone && e.updated_parsed.isNone &&
    e.published_dateutil.isNone && e.updated_dateutil.isNone

/-- With no parseable date, rss_scraper.py resolves the publish date to the
current time. -/
theorem extract_publish_date_nodate {now : Int} {e : Entry}
    (h : noParseableDate e = true) : extract_publish_date now e = now := by
  simp only [noParseableDate, Bool.and_eq_true, Option.isNone_iff_eq_none] at h
  obtain ⟨⟨⟨h1, h2⟩, h3⟩, h4⟩ := h
  simp [extract_publish_date, h1, h2, h3, h4]

/-- C6: in initial/backfill mode no entry is discarded for age; otherwise
rss_scraper.py keeps exactly the entries whose resolved publish date is at
most seven days old (entries with no parseable date resolve to now and are
kept), and rss_scraper_enhanced.py keeps exactly the entries whose
`published_parsed` is either absent (treated as recent) or at most seven
days old. -/
theorem C6_recency_policy (now : Int) (entries : List Entry) (e : Entry) :
    recentEntriesRss now true entries = entries ∧
    recentEntriesEnhanced now true entries = entries ∧
    (e ∈ recentEntriesRss now false entries ↔
      e ∈ entries ∧ now - sevenDaysSec ≤ extract_publish_date now e) ∧
    (e ∈ entries → noParseableDate e = true →
      e ∈ recentEntriesRss now false entries) ∧
    (e ∈ recentEntriesEnhanced now false entries ↔
      e ∈ entries ∧ ∀ d, e.published_parsed = some d → now - sevenDaysSec ≤ d) ∧
    (e ∈ entries → e.published_parsed = none →
      e ∈ recentEntriesEnhanced now false entries) := by
  have hrss : e ∈ recentEntriesRss now false entries ↔
      e ∈ entries ∧ now - sevenDaysSec ≤ extract_publish_date now e := by
    simp [recentEntriesRss, List.mem_filter]
  have henh : e ∈ recentEntriesEnhanced now false entries ↔
      e ∈ entries ∧ ∀ d, e.published_parsed = some d → now - sevenDaysSec ≤ d := by
    simp only [recentEntriesEnhanced, if_neg (by simp : ¬(false = true)), List.mem_filter]
    cases hp : e.published_parsed <;> simp [hp]
  refine ⟨by simp [recentEntriesRss], by simp [recentEntriesEnhanced], hrss, ?_, henh, ?_⟩
  · intro hmem hnd
    exact hrss.mpr ⟨hmem, by rw [extract_publish_date_nodate hnd]; simp [sevenDaysSec]⟩
  · intro hmem hp
    exact henh.mpr ⟨hmem, fun d hd => absurd (hp ▸ hd) (by simp)⟩

/-- Concrete recent entry for the C6 witness. -/
def entryW : Entry := { published_parsed := some 999999 }

/-- C6 (witness): a one-day-old entry survives the seven-day filter. -/
theorem C6_witness : entryW ∈ recentEntriesRss 1000000 false [entryW] :=
  (C6_recency_policy 1000000 [entryW] entryW).2.2.1.mpr ⟨by simp, by decide⟩

/-! ### Claim C7 — the end-to-end example entry -/

/-- The example feed entry of the spec. -/
def entry7 : Entry :=
  { title := "파이프트리 투자 유치 - 매일경제",
    description := "<p>회사 소개...</p>",
    link := "http://x.com/a?utm_source=y" }

/-- The record rss_scraper.py actually builds from `entry7` (matched by the
keyword 파이프트리): source suffix stripped from the title, category from
the suffix, and — because the cleaned description has fewer than ten
characters — the placeholder description; the stored `original_url` is the
raw link, query string included. -/
def record7 : NewsItem :=
  { title := "파이프트리 투자 유치", description := placeholderDesc,
    category := "매일경제", tags := "파이프트리", upload_date := 0,
    pub_datetime := 0, download_count := 0,
    thumbnail_url := rssPlaceholderImage,
    original_url := "http://x.com/a?utm_source=y" }

/-- C7 (amended): on the example entry the produced record has title
`파이프트리 투자 유치`, category `매일경제`, the placeholder description
(the HTML-stripped text is shorter than ten characters), and `original_url`
equal to the raw link `http://x.com/a?utm_source=y` — no `utm_` parameter is
stripped from the stored URL.  `html.unescape` is instantiated with the
identity, its value on this entity-free input. -/
theorem C7_example_record :
    processEntryRss (fun s => s) (fun _ => none) 0 KEYWORDS entry7 = some record7 := by
  decide

/-- C7 (counterexample): the stored `original_url` keeps the `utm_source`
query parameter, refuting the claimed `http://x.com/a`. -/
theorem C7_counterexample :
    (processEntryRss (fun s => s) (fun _ => none) 0 KEYWORDS entry7).map
        NewsItem.original_url = some "http://x.com/a?utm_source=y" ∧
    ("http://x.com/a?utm_source=y" : String) ≠ "http://x.com/a" := by
  decide

/-! ### Claims C8 and C9 — image selection -/

/-- First-occurrence dedup only drops elements. -/
theorem dedupFirstAux_subset : ∀ (seen l : List String) (x : String),
    x ∈ dedupFirstAux seen l → x ∈ l := by
  intro seen l
  induction l generalizing seen with
  | nil => intro x h; simp [dedupFirstAux] at h
  | cons y ys ih =>
    intro x h
    simp only [dedupFirstAux] at h
    split at h
    · exact List.mem_cons_of_mem _ (ih seen x h)
    · rcases List.mem_cons.mp h with rfl | h'
      · exact List.mem_cons_self _ _
      · exact List.mem_cons_of_mem _ (ih _ x h')

/-- Every collected candidate is the join of an admissible raw reference of
the page. -/
theorem collectCandidates_subset (articleUrl : String) (page : PageModel) :
    ∀ x ∈ collectCandidates articleUrl page, x ∈ admissibleImages articleUrl page := by
  intro x hx
  have hadm : admissibleImages articleUrl page =
      (page.ogImage.toList.filter admissibleSrc).map (urljoinModel articleUrl) ++
        (page.articleImgs.filter admissibleSrc).map (urljoinModel articleUrl) ++
        ((page.generalImgs.take 10).filter admissibleSrc).map (urljoinModel articleUrl) := by
    simp [admissibleImages, pageSrcs, List.filter_append, List.map_append,
      List.append_assoc]
  rw [hadm]
  simp only [collectCandidates] at hx
  split at hx
  · exact dedupFirstAux_subset [] _ x hx
  · exact List.mem_append_left _ (dedupFirstAux_subset [] _ x hx)

/-- Every measured candidate came from the candidate list, its recorded size
is exactly what the probe reported, and it passed the 200×150 floor. -/
theorem mem_measureCandidates {sizeOf : String → Option (Nat × Nat)}
    {cands : List String} {info : ImgInfo}
    (h : info ∈ measureCandidates sizeOf cands) :
    info.url ∈ cands ∧ sizeOf info.url = some (info.width, info.height) ∧
      200 ≤ info.width ∧ 150 ≤ info.height := by
  simp only [measureCandidates, List.mem_filterMap] at h
  obtain ⟨u, hu, hf⟩ := h
  cases hs : sizeOf u with
  | none => rw [hs] at hf; exact absurd hf (by simp)
  | some wh =>
    rw [hs] at hf
    dsimp only at hf
    by_cases hb : (200 ≤ wh.1 && 150 ≤ wh.2) = true
    · rw [if_pos hb] at hf
      obtain rfl := Option.some.inj hf
      simp only [Bool.and_eq_true, decide_eq_true_eq] at hb
      exact ⟨List.mem_of_mem_take hu, by simpa using hs, hb.1, hb.2⟩
    · rw [if_neg hb] at hf
      exact absurd hf (by simp)

/-- Specification of the Python `max(..., key=area)` fold: the result is one
of the inputs and its area dominates the seed and every element. -/
theorem foldlMax_spec : ∀ (xs : List ImgInfo) (x : ImgInfo),
    (xs.foldl (fun m y => if m.area < y.area then y else m) x ∈ x :: xs) ∧
    x.area ≤ (xs.foldl (fun m y => if m.area < y.area then y else m) x).area ∧
    (∀ y ∈ xs, y.area ≤ (xs.foldl (fun m y => if m.area < y.area then y else m) x).area) := by
  intro xs
  induction xs with
  | nil => intro x; exact ⟨List.mem_cons_self _ _, le_refl _, by simp⟩
  | cons y ys ih =>
    intro x
    simp only [List.foldl_cons]
    obtain ⟨hmem, hle, hall⟩ := ih (if x.area < y.area then y else x)
    refine ⟨?_, ?_, ?_⟩
    · rcases List.mem_cons.mp hmem with h | h
      · rw [h]
        split
        · exact List.mem_cons_of_mem _ (List.mem_cons_self _ _)
        · exact List.mem_cons_self _ _
      · exact List.mem_cons_of_mem _ (List.mem_cons_of_mem _ h)
    · refine le_trans ?_ hle
      split
      · next hlt => exact le_of_lt hlt
      · exact le_refl _
    · intro z hz
      rcases List.mem_cons.mp hz with rfl | hz'
      · refine le_trans ?_ hle
        split
        · exact le_refl _
        · next hnlt => exact le_of_not_lt hnlt
      · exact hall z hz'

/-- The selected image is a measured candidate of maximal area. -/
theorem selectLargest_spec : ∀ (l : List ImgInfo) (best : ImgInfo),
    selectLargest l = some best → best ∈ l ∧ ∀ x ∈ l, x.area ≤ best.area := by
  intro l best h
  cases l with
  | nil => exact absurd h (by simp [selectLargest])
  | cons x xs =>
    simp only [selectLargest, Option.some.injEq] at h
    subst h
    obtain ⟨hmem, hle, hall⟩ := foldlMax_spec xs x
    refine ⟨hmem, fun z hz => ?_⟩
    rcases List.mem_cons.mp hz with rfl | hz'
    · exact hle
    · exact hall z hz'

/-- A page whose only image is a logo referenced everywhere. -/
def logoPage : PageModel :=
  { articleImgs := ["/images/logo.png"], generalImgs := ["/images/logo.png"] }

/-- C8 (amended): every image `extract_largest_image` selects is the join of
a raw page reference that passed the exclusion filter (the filter runs on
the reference as it appears in the page, before resolution against the
article URL), and its measured size is at least 200×150; URL-encoded sizes
only cause exclusion through the two-digit×two-digit token patterns.  In
particular a page whose only image is `logo.png` yields no image at all,
whatever the size probe answers. -/
theorem C8_image_filtering :
    (∀ (articleUrl : String) (page : PageModel)
        (sizeOf : String → Option (Nat × Nat)) (info : ImgInfo),
      selectedImage articleUrl page sizeOf = some info →
        info.url ∈ admissibleImages articleUrl page ∧
        sizeOf info.url = some (info.width, info.height) ∧
        200 ≤ info.width ∧ 150 ≤ info.height) ∧
    (∀ (articleUrl : String) (sizeOf : String → Option (Nat × Nat)),
      selectedImage articleUrl logoPage sizeOf = none) := by
  constructor
  · intro articleUrl page sizeOf info h
    obtain ⟨hmem, _⟩ := selectLargest_spec _ info h
    obtain ⟨hc, hs, hw, hh⟩ := mem_measureCandidates hmem
    exact ⟨collectCandidates_subset articleUrl page info.url hc, hs, hw, hh⟩
  · intro articleUrl sizeOf
    have h : admissibleSrc "/images/logo.png" = false := by decide
    simp [selectedImage, collectCandidates, logoPage, h, measureCandidates,
      dedupFirst, dedupFirstAux, selectLargest]

/-- Page carrying one image whose URL encodes the size 300×100. -/
def pageX : PageModel := { articleImgs := ["http://s.com/pic-300x100.jpg"] }

/-- Size probe for `pageX`: the image really measures 640×480. -/
def sizeOfX : String → Option (Nat × Nat) := fun u =>
  if u = "http://s.com/pic-300x100.jpg" then some (640, 480) else none

/-- Page on a host whose name contains an exclusion keyword, with a
root-relative article image. -/
def pageN : PageModel := { articleImgs := ["/photo/big.jpg"] }

/-- Size probe for `pageN`. -/
def sizeOfN : String → Option (Nat × Nat) := fun u =>
  if u = "http://news.naver.com/photo/big.jpg" then some (600, 400) else none

/-- C8 (counterexample): the resolver does return images whose URL encodes a
size below 200×150 — `300x100` escapes both small-size token patterns — and
it does return URLs containing an exclusion substring when the substring
comes from the article host a root-relative reference is joined to
(`naver`), refuting the claim as stated. -/
theorem C8_counterexample :
    (extract_largest_image "http://s.com/art" pageX sizeOfX (fun _ => none) false =
        some "http://s.com/pic-300x100.jpg" ∧
      firstSizeMatch "http://s.com/pic-300x100.jpg".data = some (300, 100) ∧
      (100 : Nat) < 150) ∧
    (extract_largest_image "http://news.naver.com/art" pageN sizeOfN (fun _ => none) false =
        some "http://news.naver.com/photo/big.jpg" ∧
      strContains (pyLower "http://news.naver.com/photo/big.jpg") "naver" = true ∧
      "naver" ∈ exclude_keywords) := by
  decide

/-- Page with a 100×100 and a 500×400 image (claim C9 instance). -/
def pageC : PageModel :=
  { articleImgs := ["http://s.com/pic1.jpg", "http://s.com/pic2.jpg"] }

/-- Size probe for `pageC`. -/
def sizeOfC : String → Option (Nat × Nat) := fun u =>
  if u = "http://s.com/pic1.jpg" then some (100, 100)
  else if u = "http://s.com/pic2.jpg" then some (500, 400) else none

/-- C8 (witness): the filtering facts at the concrete selected image of
`pageC`. -/
theorem C8_witness :
    "http://s.com/pic2.jpg" ∈ admissibleImages "http://a.com/art" pageC ∧
    sizeOfC "http://s.com/pic2.jpg" = some (500, 400) ∧
    (200 : Nat) ≤ 500 ∧ (150 : Nat) ≤ 400 :=
  C8_image_filtering.1 "http://a.com/art" pageC sizeOfC
    (ImgInfo.mk "http://s.com/pic2.jpg" 500 400 200000) (by decide)

/-- C9: among candidates with a known measured size, everything below
200×150 is filtered out (what survives records its probed size and is at
least 200×150), the selected candidate has maximal pixel area among the
survivors, and on the concrete page with a 100×100 and a 500×400 image the
500×400 one is selected. -/
theorem C9_largest_image_selection :
    (∀ (sizeOf : String → Option (Nat × Nat)) (cands : List String) (info : ImgInfo),
      info ∈ measureCandidates sizeOf cands →
        sizeOf info.url = some (info.width, info.height) ∧
        200 ≤ info.width ∧ 150 ≤ info.height) ∧
    (∀ (sizeOf : String → Option (Nat × Nat)) (cands : List String) (best : ImgInfo),
      selectLargest (measureCandidates sizeOf cands) = some best →
        ∀ info ∈ measureCandidates sizeOf cands, info.area ≤ best.area) ∧
    selectedImage "http://a.com/art" pageC sizeOfC =
      some (ImgInfo.mk "http://s.com/pic2.jpg" 500 400 200000) := by
  refine ⟨?_, ?_, by decide⟩
  · intro sizeOf cands info h
    obtain ⟨_, hs, hw, hh⟩ := mem_measureCandidates h
    exact ⟨hs, hw, hh⟩
  · intro sizeOf cands best h
    exact (selectLargest_spec _ best h).2

/-- Page with two surviving images of areas 60000 and 120000 (C9 witness). -/
def pageW : PageModel :=
  { articleImgs := ["http://w.com/a.jpg", "http://w.com/b.jpg"] }

/-- Size probe for `pageW`. -/
def sizeOfW : String → Option (Nat × Nat) := fun u =>
  if u = "http://w.com/a.jpg" then some (300, 200)
  else if u = "http://w.com/b.jpg" then some (400, 300) else none

/-- C9 (witness): on `pageW` the selected 400×300 image dominates the
300×200 one in area. -/
theorem C9_witness :
    (ImgInfo.mk "http://w.com/a.jpg" 300 200 60000).area ≤
      (ImgInfo.mk "http://w.com/b.jpg" 400 300 120000).area :=
  C9_largest_image_selection.2.1 sizeOfW
    (collectCandidates "http://w.com/art" pageW)
    (ImgInfo.mk "http://w.com/b.jpg" 400 300 120000) (by decide)
    (ImgInfo.mk "http://w.com/a.jpg" 300 200 60000) (by decide)

/-! ### Claim C10 — append order of the main loops -/

/-- C10: both main functions append records in non-decreasing publish
datetime order — the list handed to the append loop is a sorted permutation
of the collected records (after the comprehensive dedup in rss_scraper.py,
directly in rss_scraper_enhanced.py). -/
theorem C10_append_order (items : List NewsItem) :
    (mainRecordOrder items).Pairwise (fun a b => a.pub_datetime ≤ b.pub_datetime) ∧
    (mainRecordOrder items).Perm (deduplicate_news_comprehensive items) ∧
    (mainRecordOrderEnhanced items).Pairwise (fun a b => a.pub_datetime ≤ b.pub_datetime) ∧
    (mainRecordOrderEnhanced items).Perm items := by
  have htrans : ∀ (a b c : NewsItem), pubLe a b → pubLe b c → pubLe a c := by
    intro a b c hab hbc
    simp only [pubLe, decide_eq_true_eq] at hab hbc ⊢
    exact le_trans hab hbc
  have htotal : ∀ (a b : NewsItem), pubLe a b || pubLe b a := by
    intro a b
    simp only [pubLe, Bool.or_eq_true, decide_eq_true_eq]
    exact le_total _ _
  have h1 := List.sorted_mergeSort htrans htotal (deduplicate_news_comprehensive items)
  have h2 := List.sorted_mergeSort htrans htotal items
  refine ⟨?_, List.mergeSort_perm _ _, ?_, List.mergeSort_perm _ _⟩
  · exact List.Pairwise.imp (fun h => by simpa [pubLe] using h) h1
  · exact List.Pairwise.imp (fun h => by simpa [pubLe] using h) h2

end PaiptreeNews
